import Mathlib

/-!
Shallow embedding of the wasm image pipeline in src/src/lib.rs (crate
image_cpr).  The repository code decodes an input image, optionally crops,
resizes and watermarks it, and re-encodes it.  External library calls
(the image crate codecs, the Lanczos resampler, the JS reflection layer)
are modelled either as explicit function parameters of the embedded
functions or as documented standalone definitions; everything written in
lib.rs itself is translated directly.

Machine integers: the source works with u32 values; Rust release builds
(the wasm target) compute `x + width` with wrapping semantics, so additions
that can overflow are modelled as addition modulo 2^32 (`wrapAdd`).
-/

namespace ImageCpr

/-- 2^32, the modulus of u32 arithmetic. -/
def U32LIM : Nat := 4294967296

/-- Wrapping u32 addition, the semantics of `+` on u32 in Rust release
builds (the wasm target of this crate). -/
def wrapAdd (a b : Nat) : Nat := (a + b) % U32LIM

/-- One RGBA pixel, 8 bits per channel (values live in 0..255; the
fields are Nat and the range is tracked by `Pixel.Valid` where needed). -/
structure Pixel where
  r : Nat
  g : Nat
  b : Nat
  a : Nat
deriving DecidableEq, Repr

/-- The channels of a pixel fit in 8 bits. -/
def Pixel.Valid (p : Pixel) : Prop :=
  p.r ≤ 255 ∧ p.g ≤ 255 ∧ p.b ≤ 255 ∧ p.a ≤ 255

/-- An RGBA image buffer: the in-memory `DynamicImage` / `RgbaImage` of the
source, modelled as dimensions plus a pixel lookup function.  The source
converts every buffer it mutates to RGBA8 (`to_rgba8`), and the spec data
model is straight RGBA, so a single RGBA representation stands for all
`DynamicImage` variants. -/
structure Image where
  width : Nat
  height : Nat
  pix : Nat → Nat → Pixel

/-- One RGB pixel (no alpha), the pixel type of the buffer produced by
`DynamicImage::into_rgb8` on the JPEG encode path. -/
structure RgbPixel where
  r : Nat
  g : Nat
  b : Nat
deriving DecidableEq, Repr

/-- An RGB image buffer (the `RgbImage` the JPEG encoder receives). -/
structure RgbImage where
  width : Nat
  height : Nat
  pix : Nat → Nat → RgbPixel

/-- Errors of the pipeline.  Every failure in lib.rs is a `JsError`
carrying a message string; the message identifies the error kind. -/
inductive Err where
  | jsError (msg : String)
deriving DecidableEq, Repr

/- The message strings used by lib.rs.  Two of the source messages wrap a
field name in single quotation marks; those marks are omitted here, the
rest of each message is verbatim. -/

def inputFormatMsg : String := "Input format must be a string"

def contentTypeMsg : String := "content must be a Uint8Array"

def opacityRangeMsg : String := "opacity must be between 0 and 100"

def cropBoundsMsg : String := "Crop dimensions exceed image bounds"

def watermarkBoundsMsg : String := "Watermark position exceeds image bounds"

def invalidInputFormatMsg : String := "Invalid input format"

def invalidOutputFormatMsg : String := "Invalid output format"

def unsupportedOutputMsg : String := "Unsupported output format"

def cropBoundsErr : Err := .jsError cropBoundsMsg

def watermarkBoundsErr : Err := .jsError watermarkBoundsMsg

def opacityRangeErr : Err := .jsError opacityRangeMsg

def invalidInputFormatErr : Err := .jsError invalidInputFormatMsg

def invalidOutputFormatErr : Err := .jsError invalidOutputFormatMsg

def unsupportedOutputErr : Err := .jsError unsupportedOutputMsg

/-- `CropConfig` of lib.rs: a crop rectangle, all fields u32. -/
structure CropConfig where
  x : Nat
  y : Nat
  width : Nat
  height : Nat
deriving DecidableEq, Repr

/-- `SizeConfig` of lib.rs: the resize target, both fields u32. -/
structure SizeConfig where
  width : Nat
  height : Nat
deriving DecidableEq, Repr

/-- A double-precision float, as far as the opacity handling observes
it: either NaN or an exact numeric value (a rational).  Finite doubles
are rationals; the two infinities compare against 0 and 100 like any
other out-of-range value (rejected by the range check below), so they
are covered by large rational values and need no separate constructor.
NaN is the one value with its own comparison behaviour — every `<` is
false — and must be represented, because the range check of the source
does not reject it. -/
inductive F64 where
  | nan
  | val (q : ℚ)
deriving DecidableEq, Repr

/-- The f64 `<` comparison: false whenever either side is NaN. -/
def F64.lt : F64 → F64 → Bool
  | .val a, .val b => decide (a < b)
  | _, _ => false

/-- The f64 division by 100 (`opacity / 100.0`): NaN stays NaN.  On the
numeric values the theorems below evaluate (0, 50, 100, 150) the f64
quotient is exact, so the rational quotient models it faithfully. -/
def F64.div100 : F64 → F64
  | .nan => .nan
  | .val q => .val (q / 100)

/-- `WatermarkConfig` of lib.rs.  `position` is the `[x, y, width, height]`
array (a fixed 4-element array in the source, hence a 4-tuple here);
`opacity` is the f64 kept by the struct after division by 100 — which is
a value in `[0, 1]` when the caller passed a number in `[0, 100]`, but is
NaN when the caller passed NaN (the range check cannot reject NaN). -/
structure WatermarkConfig where
  content : List Nat
  position : Nat × Nat × Nat × Nat
  opacity : F64
  use_watermark_alpha : Bool
deriving DecidableEq

/-- `ImageConfig` of lib.rs, the fully parsed request. -/
structure ImageConfig where
  format : String
  crop : Option CropConfig
  size : Option SizeConfig
  watermark : Option WatermarkConfig
  output_format : Option String
  quality : Option Nat
deriving DecidableEq

/-!  The loosely typed JS configuration object, as far as
`ImageConfig::from_js_value` inspects it.  A field holds `none` when the
JS value is absent or of the wrong type (`as_f64` / `as_string` /
`as_bool` returning None, or `dyn_ref` failing); numeric fields carry the
value after the `as u32` / `as u8` cast of the source. -/

/-- The `crop` JS object: each numeric field may be missing (the source
then defaults it to 0). -/
structure JsCrop where
  x : Option Nat
  y : Option Nat
  width : Option Nat
  height : Option Nat

/-- The `size` JS object. -/
structure JsSize where
  width : Option Nat
  height : Option Nat

/-- The `watermark` JS object.  `content` is `none` when the field is not
a Uint8Array (a construction error in the source); `position` is `none`
when the field is not an array (the source then uses `[0,0,0,0]`);
`opacity` is the f64 that `as_f64` returned — possibly NaN, which a JS
caller can pass and which the range check of the source lets through. -/
structure JsWatermark where
  content : Option (List Nat)
  position : Option (Nat × Nat × Nat × Nat)
  opacity : Option F64
  use_watermark_alpha : Option Bool

/-- The top-level JS configuration object. -/
structure JsConfig where
  format : Option String
  crop : Option JsCrop
  size : Option JsSize
  watermark : Option JsWatermark
  output_format : Option String
  quality : Option Nat

/-- The watermark branch of `ImageConfig::from_js_value` (lib.rs lines
94-147): require a Uint8Array `content`, default a missing `position` to
`[0,0,0,0]`, default a missing `opacity` to 100.0, reject when
`opacity < 0.0 || opacity > 100.0` (an f64 comparison, false in both
directions for NaN, so NaN is NOT rejected), then divide by 100 and
default `use_watermark_alpha` to false. -/
def watermarkFromJs (wmObj : JsWatermark) : Except Err WatermarkConfig :=
  match wmObj.content with
  | none => .error (.jsError contentTypeMsg)
  | some contentBytes =>
    let position := wmObj.position.getD (0, 0, 0, 0)
    let opacity := wmObj.opacity.getD (F64.val 100)
    if opacity.lt (F64.val 0) || (F64.val 100).lt opacity then
      .error opacityRangeErr
    else
      .ok { content := contentBytes
            position := position
            opacity := opacity.div100
            use_watermark_alpha := wmObj.use_watermark_alpha.getD false }

/-- `ImageConfig::from_js_value` (lib.rs lines 39-166): `format` must be a
string; missing numeric crop and size fields default to 0; the watermark
object is parsed by `watermarkFromJs`; `output_format` and `quality` are
optional. -/
def ImageConfig.from_js_value (configs : JsConfig) : Except Err ImageConfig :=
  match configs.format with
  | none => .error (.jsError inputFormatMsg)
  | some format =>
    let crop := configs.crop.map fun c =>
      CropConfig.mk (c.x.getD 0) (c.y.getD 0) (c.width.getD 0) (c.height.getD 0)
    let size := configs.size.map fun s =>
      SizeConfig.mk (s.width.getD 0) (s.height.getD 0)
    match configs.watermark with
    | none =>
      .ok { format := format, crop := crop, size := size, watermark := none
            output_format := configs.output_format, quality := configs.quality }
    | some wmObj =>
      match watermarkFromJs wmObj with
      | .error e => .error e
      | .ok wm =>
        .ok { format := format, crop := crop, size := size, watermark := some wm
              output_format := configs.output_format, quality := configs.quality }

/-- The image formats of `image::ImageFormat` that
`ImageFormat::from_extension` can return. -/
inductive ImageFormat where
  | png
  | jpeg
  | gif
  | webp
  | pnm
  | tiff
  | tga
  | dds
  | bmp
  | ico
  | hdr
  | openexr
  | farbfeld
  | avif
  | qoi
deriving DecidableEq, Repr

/-- Embeds the external `image::ImageFormat::from_extension`: the
extension string is looked up in the fixed extension table of the image
crate; anything else yields `none`.  The library ASCII-lowercases the
extension first; the spec fixes format tags to lowercase strings, so this
model takes the tag already lowercase. -/
def ImageFormat.from_extension (ext : String) : Option ImageFormat :=
  match ext with
  | "avif" => some .avif
  | "jpg" => some .jpeg
  | "jpeg" => some .jpeg
  | "png" => some .png
  | "gif" => some .gif
  | "webp" => some .webp
  | "tif" => some .tiff
  | "tiff" => some .tiff
  | "tga" => some .tga
  | "dds" => some .dds
  | "bmp" => some .bmp
  | "ico" => some .ico
  | "hdr" => some .hdr
  | "exr" => some .openexr
  | "pbm" => some .pnm
  | "pam" => some .pnm
  | "ppm" => some .pnm
  | "pgm" => some .pnm
  | "ff" => some .farbfeld
  | "qoi" => some .qoi
  | _ => none

/-- Embeds the external `DynamicImage::crop` (which delegates to
`image::imageops::crop`): the rectangle is clamped to the image bounds
(`crop_dimms`) and the clamped sub-rectangle is copied out. -/
def libCrop (img : Image) (x y w h : Nat) : Image :=
  let cx := min x img.width
  let cy := min y img.height
  let ch := min h (img.height - cy)
  let cw := min w (img.width - cx)
  { width := cw, height := ch, pix := fun i j => img.pix (cx + i) (cy + j) }

/-- `apply_crop` (lib.rs lines 169-174): reject the rectangle when
`crop.x + crop.width > img.width` or `crop.y + crop.height > img.height`,
with both sums computed in u32 (wrapping); otherwise crop. -/
def apply_crop (img : Image) (crop : CropConfig) : Except Err Image :=
  if img.width < wrapAdd crop.x crop.width ∨ img.height < wrapAdd crop.y crop.height then
    .error cropBoundsErr
  else
    .ok (libCrop img crop.x crop.y crop.width crop.height)

/-- `apply_resize` (lib.rs lines 176-189): both match arms resize the RGBA
representation of the image to the target dimensions with the external
`image::imageops::resize` (Lanczos3), which is passed in here as the
parameter `rsz`; in this model every buffer is already RGBA. -/
def apply_resize (rsz : Image → Nat → Nat → Image) (img : Image)
    (size : SizeConfig) : Image :=
  rsz img size.width size.height

/-- The dimension contract of the external resampler
`image::imageops::resize`: it always returns a buffer of exactly the
requested dimensions (an empty buffer when a target dimension is 0). -/
def ResizeDims (rsz : Image → Nat → Nat → Image) : Prop :=
  ∀ img w h, (rsz img w h).width = w ∧ (rsz img w h).height = h

/-- A concrete resampler used to instantiate witnesses: nearest-neighbour
sampling at the requested dimensions.  The library uses a Lanczos3 kernel;
every theorem below is parametric in the kernel and uses only the
dimension contract `ResizeDims`. -/
def modelResize (img : Image) (w h : Nat) : Image :=
  { width := w, height := h
    pix := fun i j => img.pix (i * img.width / max w 1) (j * img.height / max h 1) }

theorem modelResize_dims : ResizeDims modelResize := by
  intro img w h
  exact ⟨rfl, rfl⟩

/-- The Rust saturating-truncating cast of a (non-NaN) float to u8
(`as u8`): truncate toward zero and clamp to `[0, 255]`.  For the exact
nonnegative values appearing in the theorems below this is the floor
clamped at 255. -/
def f32ToU8 (q : ℚ) : Nat := min 255 (Int.toNat ⌊q⌋)

/-- The effective per-pixel alpha of the compositing loop (lib.rs lines
220-224): the watermark pixel alpha itself when `use_watermark_alpha`,
otherwise the watermark pixel alpha scaled by the opacity and cast back
to u8.  The source computes the scaling in f32: a NaN opacity gives a
NaN product, and the Rust `as u8` cast maps NaN to 0, hence the `nan`
branch; on the numeric opacity values the theorems below use (0 and 1)
the f32 arithmetic is exact and agrees with this rational model. -/
def effAlpha (wm : WatermarkConfig) (wpix : Pixel) : Nat :=
  if wm.use_watermark_alpha then wpix.a
  else
    match wm.opacity with
    | .nan => 0
    | .val q => f32ToU8 ((wpix.a : ℚ) * q)

/-- One blended pixel (lib.rs lines 225-231): each colour channel becomes
`base * (1 - alpha_f) + watermark * alpha_f` truncated to u8, with
`alpha_f = alpha / 255`; the alpha channel of the base pixel is written
back unchanged.  The source computes the blend in f32; for the
`alpha_f ∈ {0, 1}` cases used below every f32 operation involved is exact
on 8-bit channel values, so the rational model agrees bit for bit. -/
def blendPixel (wm : WatermarkConfig) (wpix mpix : Pixel) : Pixel :=
  let alphaF : ℚ := (effAlpha wm wpix : ℚ) / 255
  { r := f32ToU8 ((mpix.r : ℚ) * (1 - alphaF) + (wpix.r : ℚ) * alphaF)
    g := f32ToU8 ((mpix.g : ℚ) * (1 - alphaF) + (wpix.g : ℚ) * alphaF)
    b := f32ToU8 ((mpix.b : ℚ) * (1 - alphaF) + (wpix.b : ℚ) * alphaF)
    a := mpix.a }

/-- The pixel coordinates `(wx, wy)` of a `width × height` buffer in the
iteration order of `enumerate_pixels` (row-major, x fastest). -/
def coords (w h : Nat) : List (Nat × Nat) :=
  (List.range (w * h)).map fun i => (i % w, i / w)

/-- One iteration of the compositing loop (lib.rs lines 215-233): the
destination coordinate is `(x + wx, y + wy)` in u32 arithmetic; when it
lies inside the base image the pixel there is replaced by the blend,
otherwise nothing happens. -/
def compositeStep (wm : WatermarkConfig) (x y : Nat) (wmBuf : Image)
    (w0 h0 : Nat) (f : Nat → Nat → Pixel) (c : Nat × Nat) :
    Nat → Nat → Pixel :=
  if wrapAdd x c.1 < w0 ∧ wrapAdd y c.2 < h0 then
    fun a b =>
      if a = wrapAdd x c.1 ∧ b = wrapAdd y c.2 then
        blendPixel wm (wmBuf.pix c.1 c.2) (f (wrapAdd x c.1) (wrapAdd y c.2))
      else f a b
  else f

/-- `apply_watermark` (lib.rs lines 191-235): decode the watermark bytes
(the external `image::load_from_memory`, passed in as `wdec`), check the
placement rectangle against the base image with wrapping u32 sums, resize
the watermark to the placement dimensions (external resampler `rsz`), and
run the compositing loop over the resized watermark pixels.  The length
check on `position` in the source is vacuous (`position` is a fixed
4-element array) and is not represented. -/
def apply_watermark (wdec : List Nat → Except String Image)
    (rsz : Image → Nat → Nat → Image)
    (img : Image) (wm : WatermarkConfig) : Except Err Image :=
  match wdec wm.content with
  | .error e => .error (.jsError ("Failed to load watermark: " ++ e))
  | .ok wmImg =>
    match wm.position with
    | (x, y, width, height) =>
      if img.width < wrapAdd x width ∨ img.height < wrapAdd y height then
        .error watermarkBoundsErr
      else
        let wmBuf := rsz wmImg width height
        .ok { width := img.width, height := img.height
              pix := (coords wmBuf.width wmBuf.height).foldl
                (compositeStep wm x y wmBuf img.width img.height) img.pix }

/-- `DynamicImage::into_rgb8` on an RGBA buffer: drop the alpha channel of
every pixel (the image crate conversion from Rgba to Rgb discards alpha
without blending). -/
def intoRgb8 (img : Image) : RgbImage :=
  { width := img.width, height := img.height
    pix := fun x y => RgbPixel.mk (img.pix x y).r (img.pix x y).g (img.pix x y).b }

/-- `encode_image` (lib.rs lines 237-264).  The external codec encoders
are parameters: `jpegEnc` receives the RGB conversion of the buffer and a
quality (the `JpegEncoder::new_with_quality` path, default quality 80);
`pngEnc` receives the RGBA buffer (the source fixes CompressionType::Best
and the Paeth filter, folded into the parameter); `webpLosslessEnc` is
`WebPEncoder::new_lossless` and receives the RGBA buffer and no quality.
Any other format is rejected. -/
def encode_image (jpegEnc : RgbImage → Nat → Except String (List Nat))
    (pngEnc webpLosslessEnc : Image → Except String (List Nat))
    (img : Image) (format : ImageFormat) (quality : Option Nat) :
    Except Err (List Nat) :=
  match format with
  | .jpeg => (jpegEnc (intoRgb8 img) (quality.getD 80)).mapError Err.jsError
  | .png => (pngEnc img).mapError Err.jsError
  | .webp => (webpLosslessEnc img).mapError Err.jsError
  | _ => .error unsupportedOutputErr

/-- `image_cpr` (lib.rs lines 266-299), the pipeline entry point: parse
the configuration, resolve the input format, decode (external decoder
`dec`), then apply crop, resize and watermark when configured, resolve
the output format (defaulting to the input format) and encode. -/
def image_cpr (dec : ImageFormat → List Nat → Except String Image)
    (wdec : List Nat → Except String Image)
    (rsz : Image → Nat → Nat → Image)
    (jpegEnc : RgbImage → Nat → Except String (List Nat))
    (pngEnc webpLosslessEnc : Image → Except String (List Nat))
    (input_data : List Nat) (configs : JsConfig) : Except Err (List Nat) := do
  let config ← ImageConfig.from_js_value configs
  let format ← match ImageFormat.from_extension config.format with
    | some f => Except.ok f
    | none => Except.error invalidInputFormatErr
  let img0 ← (dec format input_data).mapError Err.jsError
  let img1 ← match config.crop with
    | some crop => apply_crop img0 crop
    | none => Except.ok img0
  let img2 := match config.size with
    | some size => apply_resize rsz img1 size
    | none => img1
  let img3 ← match config.watermark with
    | some wm => apply_watermark wdec rsz img2 wm
    | none => Except.ok img2
  let output_format_str := config.output_format.getD config.format
  let output_format ← match ImageFormat.from_extension output_format_str with
    | some f => Except.ok f
    | none => Except.error invalidOutputFormatErr
  encode_image jpegEnc pngEnc webpLosslessEnc img3 output_format config.quality

/-! Concrete test fixtures used by counterexamples and witnesses. -/

/-- An opaque white pixel. -/
def whitePix : Pixel := ⟨255, 255, 255, 255⟩

/-- A 10 × 10 opaque white base image. -/
def img10 : Image := ⟨10, 10, fun _ _ => whitePix⟩

/-- A 2 × 1 opaque test watermark image. -/
def wmTestImg : Image := ⟨2, 1, fun _ _ => ⟨10, 20, 30, 255⟩⟩

/-- A crop rectangle with `x = u32 max` and `width = 2`: its mathematical
sum `x + width` exceeds every image width, but the u32 sum wraps to 1. -/
def cropOverflowCfg : CropConfig := ⟨4294967295, 0, 2, 1⟩

/-- A watermark placement `[u32 max, 0, 2, 1]` with the same wrapping sum. -/
def wmOverflowCfg : WatermarkConfig :=
  ⟨[1], (4294967295, 0, 2, 1), F64.val 1, false⟩

/-- A decoder for fixtures: every byte string decodes to `wmTestImg`. -/
def wdecFix : List Nat → Except String Image := fun _ => Except.ok wmTestImg

/-! Small rewriting helpers for the Except monad. -/

theorem okBind {α β : Type} (a : α) (f : α → Except Err β) :
    (Except.ok a : Except Err α).bind f = f a := rfl

theorem errBind {α β : Type} (e : Err) (f : α → Except Err β) :
    (Except.error e : Except Err α).bind f = Except.error e := rfl

/-- Wrapping addition is plain addition below the u32 modulus. -/
theorem wrapAdd_eq (a b : Nat) (h : a + b < U32LIM) : wrapAdd a b = a + b :=
  Nat.mod_eq_of_lt h

/-- C1.  The claim says the bounds validation rejects every rectangle
whose true sum `x + width` exceeds the image width, even when the u32 sum
overflows.  The code computes the sum with wrapping u32 addition: on a
10 × 10 image, the crop rectangle with `x = 4294967295` and `width = 2`
has true sum exceeding the width, yet `apply_crop` accepts it (the wrapped
sum is 1), returning a cropped buffer instead of the OutOfBounds error. -/
theorem C1_crop_overflow_bypasses_validation :
    img10.width < 4294967295 + 2 ∧
    (apply_crop img10 cropOverflowCfg).isOk = true :=
  ⟨by decide, rfl⟩

/-- C2 counterexample.  A watermark placement rectangle with
`x = 4294967295`, `width = 2` on a 10 × 10 image has `x + width`
exceeding the image width, but `apply_watermark` does not fail with
OutOfBounds: the wrapped u32 check passes and the composite succeeds
(it even blends one pixel of the base image). -/
theorem C2_watermark_overflow_not_rejected :
    img10.width < 4294967295 + 2 ∧
    (apply_watermark wdecFix modelResize img10 wmOverflowCfg).isOk = true :=
  ⟨by decide, rfl⟩

/-- C2 (amended: the sums are the u32-wrapped sums the code computes).
Whenever the wrapped sum `x + width` exceeds the image width or the
wrapped sum `y + height` exceeds the image height, `apply_crop` fails
with the crop OutOfBounds error, and `apply_watermark` (once its content
bytes have decoded) fails with the watermark OutOfBounds error; in both
functions the validation precedes every buffer mutation, so the erroring
call returns no image and the base buffer is untouched. -/
theorem C2_out_of_bounds_rejected :
    (∀ (img : Image) (c : CropConfig),
      img.width < wrapAdd c.x c.width ∨ img.height < wrapAdd c.y c.height →
      apply_crop img c = Except.error cropBoundsErr) ∧
    (∀ (wdec : List Nat → Except String Image)
      (rsz : Image → Nat → Nat → Image) (img : Image)
      (wm : WatermarkConfig) (wmImg : Image) (x y w h : Nat),
      wdec wm.content = Except.ok wmImg →
      wm.position = (x, y, w, h) →
      img.width < wrapAdd x w ∨ img.height < wrapAdd y h →
      apply_watermark wdec rsz img wm = Except.error watermarkBoundsErr) := by
  constructor
  · intro img c hover
    simp only [apply_crop, if_pos hover]
  · intro wdec rsz img wm wmImg x y w h hdec hpos hover
    simp only [apply_watermark, hdec, hpos]
    simp only [if_pos hover]

/-- Witness for the amended C2 at a concrete input: the crop rectangle
`(6, 6, 5, 5)` and the watermark placement `(6, 6, 5, 5)` on the 10 × 10
test image are rejected with the respective OutOfBounds errors. -/
theorem C2_out_of_bounds_rejected_witness :
    apply_crop img10 ⟨6, 6, 5, 5⟩ = Except.error cropBoundsErr ∧
    apply_watermark wdecFix modelResize img10
        ⟨[1], (6, 6, 5, 5), F64.val 1, false⟩ =
      Except.error watermarkBoundsErr :=
  ⟨C2_out_of_bounds_rejected.1 img10 ⟨6, 6, 5, 5⟩ (by decide),
   C2_out_of_bounds_rejected.2 wdecFix modelResize img10
     ⟨[1], (6, 6, 5, 5), F64.val 1, false⟩ wmTestImg 6 6 5 5 rfl rfl
     (by decide)⟩

theorem seqBind_ok {α β : Type} (a : α) (f : α → Except Err β) :
    ((Except.ok a : Except Err α) >>= f) = f a := rfl

theorem seqBind_err {α β : Type} (e : Err) (f : α → Except Err β) :
    ((Except.error e : Except Err α) >>= f) = Except.error e := rfl

/-- When the opacity percentage is a (non-NaN) number outside
`[0, 100]`, the watermark branch of the configuration parser fails with
the opacity range error (the source checks content first, hence the
content hypothesis). -/
theorem watermarkFromJs_opacity_err (wmObj : JsWatermark) (bytes : List Nat)
    (p : ℚ) (hc : wmObj.content = some bytes)
    (hv : wmObj.opacity.getD (F64.val 100) = F64.val p)
    (hop : p < 0 ∨ 100 < p) :
    watermarkFromJs wmObj = Except.error opacityRangeErr := by
  unfold watermarkFromJs
  rw [hc]
  dsimp only
  rw [hv]
  have hcond : ((F64.val p).lt (F64.val 0) ||
      (F64.val 100).lt (F64.val p)) = true := by
    simp only [F64.lt, Bool.or_eq_true, decide_eq_true_eq]
    exact hop
  rw [if_pos hcond]

/-- Every watermark spec the parser constructs has an opacity that is
either NaN (carried through from a NaN percentage, which the range check
cannot reject) or a number in `[0, 1]`. -/
theorem watermarkFromJs_ok_opacity (wmObj : JsWatermark) (wm : WatermarkConfig)
    (h : watermarkFromJs wmObj = Except.ok wm) :
    wm.opacity = F64.nan ∨
      ∃ q : ℚ, wm.opacity = F64.val q ∧ 0 ≤ q ∧ q ≤ 1 := by
  unfold watermarkFromJs at h
  cases hc : wmObj.content with
  | none => rw [hc] at h; exact (Except.noConfusion h)
  | some bytes =>
    rw [hc] at h
    dsimp only at h
    cases hv : wmObj.opacity.getD (F64.val 100) with
    | nan =>
      rw [hv] at h
      have hcond : ¬((F64.nan.lt (F64.val 0) ||
          (F64.val 100).lt F64.nan) = true) := by
        simp [F64.lt]
      rw [if_neg hcond] at h
      injection h with h
      rw [← h]
      exact Or.inl rfl
    | val p =>
      rw [hv] at h
      by_cases hop : p < 0 ∨ 100 < p
      · have hcond : ((F64.val p).lt (F64.val 0) ||
            (F64.val 100).lt (F64.val p)) = true := by
          simp only [F64.lt, Bool.or_eq_true, decide_eq_true_eq]
          exact hop
        rw [if_pos hcond] at h
        exact (Except.noConfusion h)
      · push_neg at hop
        obtain ⟨h0, h100⟩ := hop
        have hcond : ¬(((F64.val p).lt (F64.val 0) ||
            (F64.val 100).lt (F64.val p)) = true) := by
          simp only [F64.lt, Bool.or_eq_true, decide_eq_true_eq]
          push_neg
          exact ⟨h0, h100⟩
        rw [if_neg hcond] at h
        injection h with h
        rw [← h]
        refine Or.inr ⟨p / 100, rfl, div_nonneg h0 (by norm_num), ?_⟩
        rw [div_le_one (by norm_num)]
        exact h100

/-- An out-of-range (non-NaN) opacity makes the whole configuration
parse fail with the opacity range error. -/
theorem from_js_value_opacity_err (configs : JsConfig) (fmt : String)
    (wmObj : JsWatermark) (bytes : List Nat) (p : ℚ)
    (hf : configs.format = some fmt) (hw : configs.watermark = some wmObj)
    (hc : wmObj.content = some bytes)
    (hv : wmObj.opacity.getD (F64.val 100) = F64.val p)
    (hop : p < 0 ∨ 100 < p) :
    ImageConfig.from_js_value configs = Except.error opacityRangeErr := by
  unfold ImageConfig.from_js_value
  rw [hf]
  simp only [hw, watermarkFromJs_opacity_err wmObj bytes p hc hv hop]

/-- A watermark object carrying the opacity percentage NaN. -/
def wmObjNaN : JsWatermark := ⟨some [1], some (0, 0, 1, 1), some F64.nan, some false⟩

/-- A request whose watermark opacity percentage is NaN. -/
def jsOpNaN : JsConfig := ⟨some "png", none, none, some wmObjNaN, none, none⟩

/-- The watermark spec the parser constructs from `jsOpNaN`: its opacity
is NaN, not a value in `[0, 1]`. -/
def wmCfgNaN : WatermarkConfig := ⟨[1], (0, 0, 1, 1), F64.nan, false⟩

/-- The parse of `jsOpNaN`. -/
def cfgNaN : ImageConfig := ⟨"png", none, none, some wmCfgNaN, none, none⟩

/-- C8 counterexample.  The claim says every opacity percentage outside
`[0, 100]` is rejected with InvalidParameter at construction and every
constructed spec carries an opacity in `[0, 1]`.  NaN lies outside
`[0, 100]`, yet both f64 comparisons of the guard
(`opacity < 0.0`, `opacity > 100.0`) are false on NaN, so construction
succeeds and the constructed spec carries the NaN opacity — which equals
no rational at all, in particular no value in `[0, 1]`. -/
theorem C8_nan_opacity_not_rejected :
    F64.nan.lt (F64.val 0) = false ∧
    (F64.val 100).lt F64.nan = false ∧
    ImageConfig.from_js_value jsOpNaN = Except.ok cfgNaN ∧
    cfgNaN.watermark = some wmCfgNaN ∧
    (∀ q : ℚ, wmCfgNaN.opacity ≠ F64.val q) :=
  ⟨rfl, rfl, rfl, rfl, fun _ h => F64.noConfusion h⟩

/-- C8 (amended: restricted to non-NaN percentages, the only values the
f64 range check of the source can see).  An opacity percentage that is a
number outside `[0, 100]`, in a well-formed watermark object (string
format field, Uint8Array content), makes the pipeline fail with the
InvalidParameter (opacity range) error during configuration parsing, for
every decoder and every input byte string — in particular no image or
watermark bytes are ever decoded, since the result does not depend on
the decoders or the input.  Conversely, every watermark spec that
construction accepts carries an opacity that is either a number
normalised into `[0, 1]` or the NaN the caller supplied (never a number
outside `[0, 1]`, and never clamped). -/
theorem C8_opacity_validated_at_construction :
    (∀ (configs : JsConfig) (fmt : String) (wmObj : JsWatermark)
      (bytes : List Nat) (p : ℚ),
      configs.format = some fmt →
      configs.watermark = some wmObj →
      wmObj.content = some bytes →
      wmObj.opacity.getD (F64.val 100) = F64.val p →
      p < 0 ∨ 100 < p →
      ∀ dec wdec rsz jpegEnc pngEnc webpLosslessEnc input_data,
        image_cpr dec wdec rsz jpegEnc pngEnc webpLosslessEnc input_data
          configs = Except.error opacityRangeErr) ∧
    (∀ (configs : JsConfig) (cfg : ImageConfig) (wm : WatermarkConfig),
      ImageConfig.from_js_value configs = Except.ok cfg →
      cfg.watermark = some wm →
      wm.opacity = F64.nan ∨
        ∃ q : ℚ, wm.opacity = F64.val q ∧ 0 ≤ q ∧ q ≤ 1) := by
  constructor
  · intro configs fmt wmObj bytes p hf hw hc hv hop dec wdec rsz je pe we
      input
    unfold image_cpr
    rw [from_js_value_opacity_err configs fmt wmObj bytes p hf hw hc hv hop]
    rfl
  · intro configs cfg wm hok hwm
    unfold ImageConfig.from_js_value at hok
    cases hf : configs.format with
    | none => rw [hf] at hok; exact (Except.noConfusion hok)
    | some fmt =>
      rw [hf] at hok
      dsimp only at hok
      cases hw : configs.watermark with
      | none =>
        rw [hw] at hok
        injection hok with hok
        rw [← hok] at hwm
        exact (Option.noConfusion hwm)
      | some wmObj =>
        rw [hw] at hok
        dsimp only at hok
        cases hwm2 : watermarkFromJs wmObj with
        | error e => rw [hwm2] at hok; exact (Except.noConfusion hok)
        | ok wmv =>
          rw [hwm2] at hok
          injection hok with hok
          rw [← hok] at hwm
          injection hwm with hwm
          rw [← hwm]
          exact watermarkFromJs_ok_opacity wmObj wmv hwm2

/-! More concrete fixtures: trivial external codecs for witnesses. -/

/-- A decoder fixture: every input decodes to the 10 × 10 test image. -/
def decFix : ImageFormat → List Nat → Except String Image :=
  fun _ _ => Except.ok img10

/-- A JPEG encoder fixture. -/
def jeFix : RgbImage → Nat → Except String (List Nat) := fun _ _ => Except.ok [7]

/-- A PNG encoder fixture. -/
def peFix : Image → Except String (List Nat) := fun _ => Except.ok [8]

/-- A lossless WebP encoder fixture. -/
def weFix : Image → Except String (List Nat) := fun _ => Except.ok [9]

/-- A request whose watermark has opacity percentage 150. -/
def jsOp150 : JsConfig :=
  ⟨some "png", none, none,
   some ⟨some [1], some (0, 0, 1, 1), some (F64.val 150), some false⟩,
   none, none⟩

/-- A request whose watermark has opacity percentage 50. -/
def jsOp50 : JsConfig :=
  ⟨some "png", none, none,
   some ⟨some [1], some (0, 0, 1, 1), some (F64.val 50), some false⟩,
   none, none⟩

/-- The watermark spec the parser constructs from `jsOp50` (its opacity
is 50/100, i.e. one half). -/
def wmCfg50 : WatermarkConfig := ⟨[1], (0, 0, 1, 1), F64.val (50 / 100), false⟩

/-- The image configuration the parser constructs from `jsOp50`. -/
def cfg50 : ImageConfig := ⟨"png", none, none, some wmCfg50, none, none⟩

/-- Witness for the amended C8 at concrete inputs: the opacity-150
request fails with the opacity range error without consulting any
decoder, and the watermark spec constructed from the opacity-50 request
has an opacity that is NaN or a number in [0, 1] (here: one half). -/
theorem C8_opacity_witness :
    image_cpr decFix wdecFix modelResize jeFix peFix weFix [] jsOp150 =
      Except.error opacityRangeErr ∧
    (wmCfg50.opacity = F64.nan ∨
      ∃ q : ℚ, wmCfg50.opacity = F64.val q ∧ 0 ≤ q ∧ q ≤ 1) :=
  ⟨C8_opacity_validated_at_construction.1 jsOp150 "png"
      ⟨some [1], some (0, 0, 1, 1), some (F64.val 150), some false⟩ [1] 150
      rfl rfl rfl rfl (by norm_num) decFix wdecFix modelResize jeFix peFix
      weFix [],
   C8_opacity_validated_at_construction.2 jsOp50 cfg50 wmCfg50 (by rfl) rfl⟩

/-- C9.  Resizing cannot fail: `apply_resize` is a total function into
images (the source returns `DynamicImage`, not `Result`), and under the
dimension contract of the external resampler it returns a buffer of
exactly the requested target dimensions — for a degenerate target
(`width = 0` or `height = 0`) an empty buffer of that size, not an
error.  The concrete resampler model satisfies the contract. -/
theorem C9_resize_total_and_dims :
    (∀ (rsz : Image → Nat → Nat → Image), ResizeDims rsz →
      ∀ (img : Image) (s : SizeConfig),
        (apply_resize rsz img s).width = s.width ∧
        (apply_resize rsz img s).height = s.height ∧
        ((s.width = 0 ∨ s.height = 0) →
          (apply_resize rsz img s).width * (apply_resize rsz img s).height = 0)) ∧
    ResizeDims modelResize := by
  constructor
  · intro rsz hdims img s
    obtain ⟨hw, hh⟩ := hdims img s.width s.height
    unfold apply_resize
    refine ⟨hw, hh, ?_⟩
    intro hdeg
    rw [hw, hh]
    rcases hdeg with h0 | h0 <;> rw [h0] <;> simp
  · exact modelResize_dims

/-- Witness for C9 at a concrete input: resizing the 10 × 10 test image
to the degenerate target 0 × 5 yields an empty buffer of size 0 × 5. -/
theorem C9_resize_witness :
    (apply_resize modelResize img10 ⟨0, 5⟩).width = 0 ∧
    (apply_resize modelResize img10 ⟨0, 5⟩).height = 5 ∧
    (((0 : Nat) = 0 ∨ (5 : Nat) = 0) →
      (apply_resize modelResize img10 ⟨0, 5⟩).width *
        (apply_resize modelResize img10 ⟨0, 5⟩).height = 0) :=
  C9_resize_total_and_dims.1 modelResize modelResize_dims img10 ⟨0, 5⟩

/-- C10.  On the JPEG path `encode_image` hands the encoder the
`into_rgb8` conversion of the buffer, which drops the alpha channel of
every pixel: the JPEG output is therefore invariant under arbitrary
changes to the alpha channel.  On the PNG and WebP paths the RGBA buffer
is handed to the encoder as-is (alpha preserved), and the JPEG path
receives exactly the RGB conversion with default quality 80 when absent. -/
theorem C10_jpeg_discards_alpha :
    (∀ (jpegEnc : RgbImage → Nat → Except String (List Nat))
      (pngEnc webpLosslessEnc : Image → Except String (List Nat))
      (img1 img2 : Image) (q : Option Nat),
      img1.width = img2.width → img1.height = img2.height →
      (∀ a b, (img1.pix a b).r = (img2.pix a b).r ∧
        (img1.pix a b).g = (img2.pix a b).g ∧
        (img1.pix a b).b = (img2.pix a b).b) →
      encode_image jpegEnc pngEnc webpLosslessEnc img1 ImageFormat.jpeg q =
        encode_image jpegEnc pngEnc webpLosslessEnc img2 ImageFormat.jpeg q) ∧
    (∀ (jpegEnc : RgbImage → Nat → Except String (List Nat))
      (pngEnc webpLosslessEnc : Image → Except String (List Nat))
      (img : Image) (q : Option Nat),
      encode_image jpegEnc pngEnc webpLosslessEnc img ImageFormat.png q =
        (pngEnc img).mapError Err.jsError ∧
      encode_image jpegEnc pngEnc webpLosslessEnc img ImageFormat.webp q =
        (webpLosslessEnc img).mapError Err.jsError ∧
      encode_image jpegEnc pngEnc webpLosslessEnc img ImageFormat.jpeg q =
        (jpegEnc (intoRgb8 img) (q.getD 80)).mapError Err.jsError) := by
  constructor
  · intro je pe we img1 img2 q hw hh hpix
    have hrgb : intoRgb8 img1 = intoRgb8 img2 := by
      unfold intoRgb8
      rw [hw, hh]
      congr 1
      funext a b
      obtain ⟨h1, h2, h3⟩ := hpix a b
      rw [h1, h2, h3]
    simp only [encode_image, hrgb]
  · intro je pe we img q
    exact ⟨rfl, rfl, rfl⟩

/-- A 1 × 1 fully transparent pixel image. -/
def imgClear : Image := ⟨1, 1, fun _ _ => ⟨1, 2, 3, 0⟩⟩

/-- A 1 × 1 fully opaque pixel image with the same colour channels. -/
def imgOpaque : Image := ⟨1, 1, fun _ _ => ⟨1, 2, 3, 255⟩⟩

/-- Witness for C10 at concrete inputs: two images differing only in
alpha produce the same JPEG encoder input, hence the same JPEG output. -/
theorem C10_jpeg_witness :
    encode_image jeFix peFix weFix imgClear ImageFormat.jpeg none =
      encode_image jeFix peFix weFix imgOpaque ImageFormat.jpeg none ∧
    encode_image jeFix peFix weFix imgClear ImageFormat.png none =
      (peFix imgClear).mapError Err.jsError :=
  ⟨C10_jpeg_discards_alpha.1 jeFix peFix weFix imgClear imgOpaque none rfl rfl
      (fun _ _ => ⟨rfl, rfl, rfl⟩),
   (C10_jpeg_discards_alpha.2 jeFix peFix weFix imgClear none).1⟩

/-- Modelled from the spec: the optional-gated stage sequence
`[Crop] → [Resize] → [Watermark]` of the orchestrator state machine — a
stage whose configuration is absent passes the buffer through unchanged,
and the first failing stage aborts the sequence with its error. -/
def specStages (wdec : List Nat → Except String Image)
    (rsz : Image → Nat → Nat → Image)
    (cfg : ImageConfig) (img0 : Image) : Except Err Image :=
  (match cfg.crop with
    | some crop => apply_crop img0 crop
    | none => Except.ok img0) >>= fun img1 =>
  let img2 := match cfg.size with
    | some size => apply_resize rsz img1 size
    | none => img1
  match cfg.watermark with
  | some wm => apply_watermark wdec rsz img2 wm
  | none => Except.ok img2

/-- Modelled from the spec: the full orchestrator
`Decode → [Crop] → [Resize] → [Watermark] → Encode`, with the output
format defaulting to the input format, as a composition of the stage
sequence with parsing, decoding and encoding. -/
def specOrchestrator (dec : ImageFormat → List Nat → Except String Image)
    (wdec : List Nat → Except String Image)
    (rsz : Image → Nat → Nat → Image)
    (jpegEnc : RgbImage → Nat → Except String (List Nat))
    (pngEnc webpLosslessEnc : Image → Except String (List Nat))
    (input_data : List Nat) (configs : JsConfig) : Except Err (List Nat) :=
  ImageConfig.from_js_value configs >>= fun cfg =>
  (match ImageFormat.from_extension cfg.format with
    | some f => Except.ok f
    | none => Except.error invalidInputFormatErr) >>= fun format =>
  ((dec format input_data).mapError Err.jsError) >>= fun img0 =>
  specStages wdec rsz cfg img0 >>= fun img3 =>
  (match ImageFormat.from_extension (cfg.output_format.getD cfg.format) with
    | some f => Except.ok f
    | none => Except.error invalidOutputFormatErr) >>= fun output_format =>
  encode_image jpegEnc pngEnc webpLosslessEnc img3 output_format cfg.quality

/-- Rewrites the match-lifted tail of the desugared pipeline into the
bind-of-match form of the spec orchestrator. -/
theorem tail_resolve_eq (jpegEnc : RgbImage → Nat → Except String (List Nat))
    (pngEnc webpLosslessEnc : Image → Except String (List Nat))
    (img3 : Image) (q : Option Nat) (o : Option ImageFormat) :
    (match o with
      | some f => encode_image jpegEnc pngEnc webpLosslessEnc img3 f q
      | none => (Except.error invalidOutputFormatErr : Except Err ImageFormat) >>=
          fun f => encode_image jpegEnc pngEnc webpLosslessEnc img3 f q) =
    ((match o with
      | some f => Except.ok f
      | none => Except.error invalidOutputFormatErr) >>=
        fun f => encode_image jpegEnc pngEnc webpLosslessEnc img3 f q) := by
  cases o with
  | some f => rfl
  | none => rfl

/-- The source pipeline is exactly the spec orchestrator (the two differ
only in the association of the monadic binds). -/
theorem image_cpr_eq_specOrchestrator
    (dec : ImageFormat → List Nat → Except String Image)
    (wdec : List Nat → Except String Image)
    (rsz : Image → Nat → Nat → Image)
    (jpegEnc : RgbImage → Nat → Except String (List Nat))
    (pngEnc webpLosslessEnc : Image → Except String (List Nat))
    (input_data : List Nat) (configs : JsConfig) :
    image_cpr dec wdec rsz jpegEnc pngEnc webpLosslessEnc input_data configs =
      specOrchestrator dec wdec rsz jpegEnc pngEnc webpLosslessEnc
        input_data configs := by
  unfold image_cpr specOrchestrator specStages
  cases ImageConfig.from_js_value configs with
  | error e => rfl
  | ok cfg =>
    simp only [seqBind_ok]
    cases ImageFormat.from_extension cfg.format with
    | none => rfl
    | some fmt =>
      simp only [seqBind_ok]
      cases (dec fmt input_data).mapError Err.jsError with
      | error e => rfl
      | ok img0 =>
        simp only [seqBind_ok]
        cases cfg.crop with
        | none =>
          simp only [seqBind_ok]
          cases cfg.watermark with
          | none =>
            simp only [seqBind_ok]
            rw [tail_resolve_eq]
          | some wm =>
            dsimp only
            cases apply_watermark wdec rsz
              (match cfg.size with
                | some size => apply_resize rsz img0 size
                | none => img0) wm with
            | error e => rfl
            | ok img3 =>
              simp only [seqBind_ok]
              rw [tail_resolve_eq]
        | some crop =>
          dsimp only
          cases apply_crop img0 crop with
          | error e => rfl
          | ok img1 =>
            simp only [seqBind_ok]
            cases cfg.watermark with
            | none =>
              simp only [seqBind_ok]
              rw [tail_resolve_eq]
            | some wm =>
              dsimp only
              cases apply_watermark wdec rsz
                (match cfg.size with
                  | some size => apply_resize rsz img1 size
                  | none => img1) wm with
              | error e => rfl
              | ok img3 =>
                simp only [seqBind_ok]
                rw [tail_resolve_eq]

/-- A missing numeric quality is the only difference between a request
and its quality-overridden variant after parsing. -/
theorem from_js_value_quality (configs : JsConfig) (q : Option Nat) :
    ImageConfig.from_js_value { configs with quality := q } =
      (ImageConfig.from_js_value configs).map
        (fun cfg => { cfg with quality := q }) := by
  unfold ImageConfig.from_js_value
  dsimp only
  cases hf : configs.format with
  | none => rfl
  | some fmt =>
    dsimp only
    cases hw : configs.watermark with
    | none => rfl
    | some wmObj =>
      dsimp only
      cases watermarkFromJs wmObj with
      | error e => rfl
      | ok wm => rfl

/-- A successful parse takes the format from the request, and copies the
output format and quality fields over verbatim. -/
theorem from_js_value_ok_fields (configs : JsConfig) (cfg : ImageConfig)
    (h : ImageConfig.from_js_value configs = Except.ok cfg) :
    configs.format = some cfg.format ∧
    cfg.output_format = configs.output_format ∧
    cfg.quality = configs.quality := by
  unfold ImageConfig.from_js_value at h
  cases hf : configs.format with
  | none => rw [hf] at h; exact (Except.noConfusion h)
  | some fmt =>
    rw [hf] at h
    dsimp only at h
    cases hw : configs.watermark with
    | none =>
      rw [hw] at h
      injection h with h
      rw [← h]
      exact ⟨rfl, rfl, rfl⟩
    | some wmObj =>
      rw [hw] at h
      dsimp only at h
      cases hwm : watermarkFromJs wmObj with
      | error e => rw [hwm] at h; exact (Except.noConfusion h)
      | ok wm =>
        rw [hwm] at h
        injection h with h
        rw [← h]
        exact ⟨rfl, rfl, rfl⟩

/-- C3.  The pipeline is exactly the ordered, optional-gated stage machine
of the spec: (1) `image_cpr` equals the spec orchestrator
`Decode → [Crop] → [Resize] → [Watermark] → Encode` for all inputs;
(2) when every optional stage is absent the stage sequence returns the
decoded buffer unchanged; (3, 4) a failing crop stage aborts the stage
sequence with its own error, and at pipeline level the whole transform
returns exactly that error for every choice of the later-stage functions
(watermark decoder, resampler, encoders) — no output bytes are produced
and no later stage can influence the result; (5) a failing watermark
stage likewise aborts with its own error. -/
theorem C3_stage_order_and_short_circuit :
    (∀ dec wdec rsz jpegEnc pngEnc webpLosslessEnc input_data configs,
      image_cpr dec wdec rsz jpegEnc pngEnc webpLosslessEnc input_data configs =
        specOrchestrator dec wdec rsz jpegEnc pngEnc webpLosslessEnc
          input_data configs) ∧
    (∀ wdec rsz (cfg : ImageConfig) (img0 : Image),
      cfg.crop = none → cfg.size = none → cfg.watermark = none →
      specStages wdec rsz cfg img0 = Except.ok img0) ∧
    (∀ wdec rsz (cfg : ImageConfig) (img0 : Image) (c : CropConfig) (e : Err),
      cfg.crop = some c → apply_crop img0 c = Except.error e →
      specStages wdec rsz cfg img0 = Except.error e) ∧
    (∀ dec input_data (configs : JsConfig) (cfg : ImageConfig)
      (fmt : ImageFormat) (img0 : Image) (c : CropConfig) (e : Err),
      ImageConfig.from_js_value configs = Except.ok cfg →
      ImageFormat.from_extension cfg.format = some fmt →
      dec fmt input_data = Except.ok img0 →
      cfg.crop = some c →
      apply_crop img0 c = Except.error e →
      ∀ wdec rsz jpegEnc pngEnc webpLosslessEnc,
        image_cpr dec wdec rsz jpegEnc pngEnc webpLosslessEnc input_data
          configs = Except.error e) ∧
    (∀ wdec rsz (cfg : ImageConfig) (img0 : Image) (wm : WatermarkConfig)
      (e : Err),
      cfg.crop = none → cfg.size = none → cfg.watermark = some wm →
      apply_watermark wdec rsz img0 wm = Except.error e →
      specStages wdec rsz cfg img0 = Except.error e) := by
  refine ⟨?_, ?_, ?_, ?_, ?_⟩
  · intro dec wdec rsz je pe we input configs
    exact image_cpr_eq_specOrchestrator dec wdec rsz je pe we input configs
  · intro wdec rsz cfg img0 hc hs hw
    unfold specStages
    rw [hc, hs, hw]
    rfl
  · intro wdec rsz cfg img0 c e hc hac
    unfold specStages
    rw [hc]
    dsimp only
    rw [hac]
    rfl
  · intro dec input configs cfg fmt img0 c e hparse hfmt hdec hc hac
    intro wdec rsz je pe we
    rw [image_cpr_eq_specOrchestrator]
    unfold specOrchestrator
    simp only [hparse, seqBind_ok, hfmt, hdec]
    dsimp only [Except.mapError]
    simp only [seqBind_ok]
    unfold specStages
    rw [hc]
    dsimp only
    rw [hac]
    rfl
  · intro wdec rsz cfg img0 wm e hc hs hw hwm
    unfold specStages
    rw [hc, hs, hw]
    dsimp only
    simp only [seqBind_ok]
    exact hwm

/-- The empty configuration (no crop, size or watermark). -/
def cfgEmpty : ImageConfig := ⟨"png", none, none, none, none, none⟩

/-- A parsed configuration with the out-of-bounds crop `(6, 6, 5, 5)`. -/
def cfgCropBad : ImageConfig := ⟨"png", some ⟨6, 6, 5, 5⟩, none, none, none, none⟩

/-- The request that parses to `cfgCropBad`. -/
def jsCropBad : JsConfig :=
  ⟨some "png", some ⟨some 6, some 6, some 5, some 5⟩, none, none, none, none⟩

/-- A parsed configuration with an out-of-bounds watermark placement. -/
def cfgWmBad : ImageConfig :=
  ⟨"png", none, none, some ⟨[1], (6, 6, 5, 5), F64.val 1, false⟩, none, none⟩

/-- Witness for C3 at concrete inputs: the all-absent configuration
passes the buffer through; a failing crop aborts the stage sequence and
the whole pipeline with the crop error; a failing watermark aborts with
the watermark error. -/
theorem C3_stage_order_witness :
    specStages wdecFix modelResize cfgEmpty img10 = Except.ok img10 ∧
    specStages wdecFix modelResize cfgCropBad img10 =
      Except.error cropBoundsErr ∧
    image_cpr decFix wdecFix modelResize jeFix peFix weFix [] jsCropBad =
      Except.error cropBoundsErr ∧
    specStages wdecFix modelResize cfgWmBad img10 =
      Except.error watermarkBoundsErr :=
  ⟨C3_stage_order_and_short_circuit.2.1 wdecFix modelResize cfgEmpty img10
      rfl rfl rfl,
   C3_stage_order_and_short_circuit.2.2.1 wdecFix modelResize cfgCropBad img10
      ⟨6, 6, 5, 5⟩ cropBoundsErr rfl rfl,
   C3_stage_order_and_short_circuit.2.2.2.1 decFix [] jsCropBad cfgCropBad
      ImageFormat.png img10 ⟨6, 6, 5, 5⟩ cropBoundsErr (by rfl) (by decide)
      (by rfl) (by rfl) (by rfl) wdecFix modelResize jeFix peFix weFix,
   C3_stage_order_and_short_circuit.2.2.2.2 wdecFix modelResize cfgWmBad img10
      ⟨[1], (6, 6, 5, 5), F64.val 1, false⟩ watermarkBoundsErr rfl rfl rfl rfl⟩

/-- A request with input format `jpg` and no output format. -/
def jsJpg : JsConfig := ⟨some "jpg", none, none, none, none, none⟩

/-- C4 counterexample.  The claim says any format tag outside
`{jpeg, png, webp}` fails with InvalidFormat.  But the tag `jpg` is
outside that set, and the transform accepts it: the extension table
resolves it to the JPEG codec and the pipeline succeeds, returning the
JPEG encoder output. -/
theorem C4_jpg_tag_is_accepted :
    image_cpr decFix wdecFix modelResize jeFix peFix weFix [] jsJpg =
      Except.ok [7] := rfl

/-- Overriding the output format field is the only difference between a
request and its output-format-overridden variant after parsing. -/
theorem from_js_value_output (configs : JsConfig) (o : Option String) :
    ImageConfig.from_js_value { configs with output_format := o } =
      (ImageConfig.from_js_value configs).map
        (fun cfg => { cfg with output_format := o }) := by
  unfold ImageConfig.from_js_value
  dsimp only
  cases hf : configs.format with
  | none => rfl
  | some fmt =>
    dsimp only
    cases hw : configs.watermark with
    | none => rfl
    | some wmObj =>
      dsimp only
      cases watermarkFromJs wmObj with
      | error e => rfl
      | ok wm => rfl

/-- A recognized output format other than JPEG, PNG or WebP is rejected
by the encoder with the unsupported-output error. -/
theorem encode_image_unsupported
    (jpegEnc : RgbImage → Nat → Except String (List Nat))
    (pngEnc webpLosslessEnc : Image → Except String (List Nat))
    (img : Image) (q : Option Nat) (g : ImageFormat)
    (h1 : g ≠ ImageFormat.jpeg) (h2 : g ≠ ImageFormat.png)
    (h3 : g ≠ ImageFormat.webp) :
    encode_image jpegEnc pngEnc webpLosslessEnc img g q =
      Except.error unsupportedOutputErr := by
  cases g
  case jpeg => exact absurd rfl h1
  case png => exact absurd rfl h2
  case webp => exact absurd rfl h3
  all_goals rfl

/-- C4 (amended: the recognized tag set is the extension table of the
image crate, which is strictly larger than `{jpeg, png, webp}` — it also
contains `jpg`, `gif`, `bmp`, `tiff`, and more; a recognized output
format outside the three supported codecs fails at the encoding step with
the unsupported-output error rather than with InvalidFormat).
(1) A request without an output format behaves exactly like the same
request with the output format set to its input format tag.
(2) An input tag outside the extension table fails with the
invalid-input-format error.
(3) An output tag outside the extension table fails with the
invalid-output-format error.
(4) An output tag inside the table but outside `{jpeg, png, webp}` fails
with the unsupported-output error. -/
theorem C4_format_resolution :
    (∀ dec wdec rsz jpegEnc pngEnc webpLosslessEnc input_data
      (configs : JsConfig) (s : String),
      configs.format = some s → configs.output_format = none →
      image_cpr dec wdec rsz jpegEnc pngEnc webpLosslessEnc input_data
        configs =
      image_cpr dec wdec rsz jpegEnc pngEnc webpLosslessEnc input_data
        { configs with output_format := some s }) ∧
    (∀ dec wdec rsz jpegEnc pngEnc webpLosslessEnc input_data
      (configs : JsConfig) (cfg : ImageConfig),
      ImageConfig.from_js_value configs = Except.ok cfg →
      ImageFormat.from_extension cfg.format = none →
      image_cpr dec wdec rsz jpegEnc pngEnc webpLosslessEnc input_data
        configs = Except.error invalidInputFormatErr) ∧
    (∀ dec wdec rsz jpegEnc pngEnc webpLosslessEnc input_data
      (configs : JsConfig) (cfg : ImageConfig) (fmt : ImageFormat)
      (img0 : Image) (t : String),
      ImageConfig.from_js_value configs = Except.ok cfg →
      ImageFormat.from_extension cfg.format = some fmt →
      dec fmt input_data = Except.ok img0 →
      cfg.crop = none → cfg.size = none → cfg.watermark = none →
      cfg.output_format = some t →
      ImageFormat.from_extension t = none →
      image_cpr dec wdec rsz jpegEnc pngEnc webpLosslessEnc input_data
        configs = Except.error invalidOutputFormatErr) ∧
    (∀ dec wdec rsz jpegEnc pngEnc webpLosslessEnc input_data
      (configs : JsConfig) (cfg : ImageConfig) (fmt : ImageFormat)
      (img0 : Image) (t : String) (g : ImageFormat),
      ImageConfig.from_js_value configs = Except.ok cfg →
      ImageFormat.from_extension cfg.format = some fmt →
      dec fmt input_data = Except.ok img0 →
      cfg.crop = none → cfg.size = none → cfg.watermark = none →
      cfg.output_format = some t →
      ImageFormat.from_extension t = some g →
      g ≠ ImageFormat.jpeg → g ≠ ImageFormat.png → g ≠ ImageFormat.webp →
      image_cpr dec wdec rsz jpegEnc pngEnc webpLosslessEnc input_data
        configs = Except.error unsupportedOutputErr) := by
  refine ⟨?_, ?_, ?_, ?_⟩
  · intro dec wdec rsz je pe we input configs s hs ho
    rw [image_cpr_eq_specOrchestrator, image_cpr_eq_specOrchestrator]
    unfold specOrchestrator
    conv_rhs => rw [from_js_value_output]
    cases hp : ImageConfig.from_js_value configs with
    | error e => rfl
    | ok cfg =>
      obtain ⟨hfmt, hofmt, _⟩ := from_js_value_ok_fields configs cfg hp
      have hs2 : s = cfg.format := by
        rw [hs] at hfmt
        injection hfmt with hfmt
      have hout : cfg.output_format = none := by rw [hofmt, ho]
      subst hs2
      simp only [Except.map, seqBind_ok]
      rw [hout]
      rfl
  · intro dec wdec rsz je pe we input configs cfg hp hfe
    rw [image_cpr_eq_specOrchestrator]
    unfold specOrchestrator
    simp only [hp, seqBind_ok, hfe]
    rfl
  · intro dec wdec rsz je pe we input configs cfg fmt img0 t hp hfe hdec hc hsz
      hwm hot hfe2
    rw [image_cpr_eq_specOrchestrator]
    unfold specOrchestrator
    simp only [hp, seqBind_ok, hfe, hdec]
    dsimp only [Except.mapError]
    simp only [seqBind_ok]
    unfold specStages
    rw [hc, hsz, hwm]
    dsimp only
    simp only [seqBind_ok, hot]
    dsimp only [Option.getD]
    simp only [hfe2]
    rfl
  · intro dec wdec rsz je pe we input configs cfg fmt img0 t g hp hfe hdec hc
      hsz hwm hot hfe2 hg1 hg2 hg3
    rw [image_cpr_eq_specOrchestrator]
    unfold specOrchestrator
    simp only [hp, seqBind_ok, hfe, hdec]
    dsimp only [Except.mapError]
    simp only [seqBind_ok]
    unfold specStages
    rw [hc, hsz, hwm]
    dsimp only
    simp only [seqBind_ok, hot]
    dsimp only [Option.getD]
    simp only [hfe2, seqBind_ok]
    exact encode_image_unsupported je pe we img0 cfg.quality g hg1 hg2 hg3

/-- A request with input format `png`, nothing else. -/
def jsPng : JsConfig := ⟨some "png", none, none, none, none, none⟩

/-- A request with the unrecognized input tag `xyz`. -/
def jsXyz : JsConfig := ⟨some "xyz", none, none, none, none, none⟩

/-- The parse of `jsXyz`. -/
def cfgXyz : ImageConfig := ⟨"xyz", none, none, none, none, none⟩

/-- A request from `png` to the unrecognized output tag `xyz`. -/
def jsPngToXyz : JsConfig := ⟨some "png", none, none, none, some "xyz", none⟩

/-- The parse of `jsPngToXyz`. -/
def cfgPngToXyz : ImageConfig := ⟨"png", none, none, none, some "xyz", none⟩

/-- A request from `png` to `gif` (recognized tag, unsupported codec). -/
def jsPngToGif : JsConfig := ⟨some "png", none, none, none, some "gif", none⟩

/-- The parse of `jsPngToGif`. -/
def cfgPngToGif : ImageConfig := ⟨"png", none, none, none, some "gif", none⟩

/-- Witness for the amended C4 at concrete inputs: omitting the output
format equals requesting the input format; the tag `xyz` fails as input
and as output; the recognized but unsupported output tag `gif` fails at
encoding. -/
theorem C4_format_resolution_witness :
    image_cpr decFix wdecFix modelResize jeFix peFix weFix [] jsPng =
      image_cpr decFix wdecFix modelResize jeFix peFix weFix []
        { jsPng with output_format := some "png" } ∧
    image_cpr decFix wdecFix modelResize jeFix peFix weFix [] jsXyz =
      Except.error invalidInputFormatErr ∧
    image_cpr decFix wdecFix modelResize jeFix peFix weFix [] jsPngToXyz =
      Except.error invalidOutputFormatErr ∧
    image_cpr decFix wdecFix modelResize jeFix peFix weFix [] jsPngToGif =
      Except.error unsupportedOutputErr :=
  ⟨C4_format_resolution.1 decFix wdecFix modelResize jeFix peFix weFix []
      jsPng "png" rfl rfl,
   C4_format_resolution.2.1 decFix wdecFix modelResize jeFix peFix weFix []
      jsXyz cfgXyz (by rfl) (by rfl),
   C4_format_resolution.2.2.1 decFix wdecFix modelResize jeFix peFix weFix []
      jsPngToXyz cfgPngToXyz ImageFormat.png img10 "xyz" (by rfl) (by rfl)
      (by rfl) rfl rfl rfl rfl (by rfl),
   C4_format_resolution.2.2.2 decFix wdecFix modelResize jeFix peFix weFix []
      jsPngToGif cfgPngToGif ImageFormat.png img10 "gif" ImageFormat.gif
      (by rfl) (by rfl) (by rfl) rfl rfl rfl rfl (by rfl) (by decide)
      (by decide) (by decide)⟩

/-- C5.  WebP encoding always uses the lossless encoder and never reads
the quality: at the encoder level the output is literally independent of
the quality argument, and at the pipeline level two requests differing
only in their quality field produce identical output whenever the
resolved output format tag is `webp`. -/
theorem C5_webp_ignores_quality :
    (∀ (jpegEnc : RgbImage → Nat → Except String (List Nat))
      (pngEnc webpLosslessEnc : Image → Except String (List Nat))
      (img : Image) (q1 q2 : Option Nat),
      encode_image jpegEnc pngEnc webpLosslessEnc img ImageFormat.webp q1 =
        encode_image jpegEnc pngEnc webpLosslessEnc img ImageFormat.webp q2) ∧
    (∀ dec wdec rsz jpegEnc pngEnc webpLosslessEnc input_data
      (configs : JsConfig) (q1 q2 : Option Nat),
      ImageFormat.from_extension
        (configs.output_format.getD (configs.format.getD "")) =
          some ImageFormat.webp →
      image_cpr dec wdec rsz jpegEnc pngEnc webpLosslessEnc input_data
        { configs with quality := q1 } =
      image_cpr dec wdec rsz jpegEnc pngEnc webpLosslessEnc input_data
        { configs with quality := q2 }) := by
  constructor
  · intro je pe we img q1 q2
    rfl
  · intro dec wdec rsz je pe we input configs q1 q2 hout
    rw [image_cpr_eq_specOrchestrator, image_cpr_eq_specOrchestrator]
    unfold specOrchestrator
    conv_lhs => rw [from_js_value_quality]
    conv_rhs => rw [from_js_value_quality]
    cases hp : ImageConfig.from_js_value configs with
    | error e => rfl
    | ok cfg =>
      obtain ⟨hfmt, hofmt, _⟩ := from_js_value_ok_fields configs cfg hp
      have hout2 : ImageFormat.from_extension
          (cfg.output_format.getD cfg.format) = some ImageFormat.webp := by
        rw [hofmt]
        rw [hfmt] at hout
        simpa using hout
      simp only [Except.map, seqBind_ok]
      cases hfe : ImageFormat.from_extension cfg.format with
      | none => rfl
      | some fmt =>
        dsimp only
        simp only [seqBind_ok]
        cases hdec : (dec fmt input).mapError Err.jsError with
        | error e => rfl
        | ok img0 =>
          simp only [seqBind_ok]
          have hsp : ∀ (q : Option Nat),
              specStages wdec rsz { cfg with quality := q } img0 =
                specStages wdec rsz cfg img0 := fun _ => rfl
          conv_lhs => rw [hsp q1]
          conv_rhs => rw [hsp q2]
          cases hst : specStages wdec rsz cfg img0 with
          | error e => rfl
          | ok img3 =>
            simp only [seqBind_ok]
            rw [hout2]
            rfl

/-- A `png` to `webp` request template with quality field `q`. -/
def jsToWebp (q : Option Nat) : JsConfig :=
  ⟨some "png", none, none, none, some "webp", q⟩

/-- Witness for C5 at concrete inputs: encoding the test image to WebP
with quality 10 and 90 gives identical bytes, at the encoder level and
through the whole pipeline. -/
theorem C5_webp_quality_witness :
    encode_image jeFix peFix weFix img10 ImageFormat.webp (some 10) =
      encode_image jeFix peFix weFix img10 ImageFormat.webp (some 90) ∧
    image_cpr decFix wdecFix modelResize jeFix peFix weFix []
        { jsToWebp none with quality := some 10 } =
      image_cpr decFix wdecFix modelResize jeFix peFix weFix []
        { jsToWebp none with quality := some 90 } :=
  ⟨C5_webp_ignores_quality.1 jeFix peFix weFix img10 (some 10) (some 90),
   C5_webp_ignores_quality.2 decFix wdecFix modelResize jeFix peFix weFix []
      (jsToWebp none) (some 10) (some 90) (by rfl)⟩

/-! Lemmas about the compositing loop. -/

/-- The u8 cast is the identity on exact 8-bit channel values. -/
theorem f32ToU8_natCast (c : Nat) (hc : c ≤ 255) : f32ToU8 (c : ℚ) = c := by
  unfold f32ToU8
  rw [Int.floor_natCast, Int.toNat_natCast]
  exact Nat.min_eq_right hc

/-- With `use_watermark_alpha = false` and opacity 0 the effective alpha
is 0. -/
theorem effAlpha_zero (wm : WatermarkConfig) (wpix : Pixel)
    (hU : wm.use_watermark_alpha = false) (hO : wm.opacity = F64.val 0) :
    effAlpha wm wpix = 0 := by
  unfold effAlpha
  rw [hU, hO]
  simp [f32ToU8]

/-- With effective alpha 0 the blend writes the base pixel back
unchanged (on 8-bit base channels). -/
theorem blendPixel_opacity_zero (wm : WatermarkConfig)
    (hU : wm.use_watermark_alpha = false) (hO : wm.opacity = F64.val 0)
    (wpix mpix : Pixel) (hm : mpix.Valid) :
    blendPixel wm wpix mpix = mpix := by
  obtain ⟨hr, hg, hb, _⟩ := hm
  unfold blendPixel
  rw [effAlpha_zero wm wpix hU hO]
  simp only [Nat.cast_zero, zero_div, sub_zero, mul_one, mul_zero, add_zero]
  rw [f32ToU8_natCast mpix.r hr, f32ToU8_natCast mpix.g hg,
    f32ToU8_natCast mpix.b hb]

/-- With `use_watermark_alpha = false`, opacity 1 and a fully opaque
watermark pixel, the blend writes exactly the watermark colour channels. -/
theorem blendPixel_full (wm : WatermarkConfig)
    (hU : wm.use_watermark_alpha = false) (hO : wm.opacity = F64.val 1)
    (wpix mpix : Pixel) (hw : wpix.Valid) (ha : wpix.a = 255) :
    (blendPixel wm wpix mpix).r = wpix.r ∧
    (blendPixel wm wpix mpix).g = wpix.g ∧
    (blendPixel wm wpix mpix).b = wpix.b := by
  obtain ⟨hr, hg, hb, _⟩ := hw
  have hea : effAlpha wm wpix = 255 := by
    unfold effAlpha
    rw [hU, hO, ha]
    norm_num [f32ToU8]
  unfold blendPixel
  rw [hea]
  norm_num
  exact ⟨f32ToU8_natCast wpix.r hr, f32ToU8_natCast wpix.g hg,
    f32ToU8_natCast wpix.b hb⟩

/-- A pixel whose coordinate is hit by no iteration of the loop is left
unchanged by the whole fold. -/
theorem foldl_step_untouched (wm : WatermarkConfig) (x y : Nat)
    (wmBuf : Image) (w0 h0 : Nat) (l : List (Nat × Nat))
    (f : Nat → Nat → Pixel) (a b : Nat)
    (h : ∀ c ∈ l, ¬(a = wrapAdd x c.1 ∧ b = wrapAdd y c.2)) :
    l.foldl (compositeStep wm x y wmBuf w0 h0) f a b = f a b := by
  induction l generalizing f with
  | nil => rfl
  | cons c l ih =>
    rw [List.foldl_cons]
    rw [ih (compositeStep wm x y wmBuf w0 h0 f c)
      (fun c' hc' => h c' (List.mem_cons_of_mem c hc'))]
    have hc := h c (List.mem_cons_self c l)
    unfold compositeStep
    split
    · dsimp only
      rw [if_neg hc]
    · rfl

/-- The compositing loop never modifies the alpha channel. -/
theorem foldl_step_alpha (wm : WatermarkConfig) (x y : Nat) (wmBuf : Image)
    (w0 h0 : Nat) (l : List (Nat × Nat)) (f : Nat → Nat → Pixel) (a b : Nat) :
    (l.foldl (compositeStep wm x y wmBuf w0 h0) f a b).a = (f a b).a := by
  induction l generalizing f with
  | nil => rfl
  | cons c l ih =>
    rw [List.foldl_cons, ih]
    unfold compositeStep
    split
    · dsimp only
      by_cases hab : a = wrapAdd x c.1 ∧ b = wrapAdd y c.2
      · rw [if_pos hab]
        obtain ⟨ha, hb⟩ := hab
        subst ha
        subst hb
        rfl
      · rw [if_neg hab]
    · rfl

/-- With opacity 0 (and the watermark alpha unused) every iteration of
the loop is the identity on a valid buffer, so the fold is too. -/
theorem foldl_step_id (wm : WatermarkConfig) (x y : Nat) (wmBuf : Image)
    (w0 h0 : Nat)
    (hU : wm.use_watermark_alpha = false) (hO : wm.opacity = F64.val 0)
    (l : List (Nat × Nat)) (f : Nat → Nat → Pixel)
    (hf : ∀ a b, (f a b).Valid) (a b : Nat) :
    l.foldl (compositeStep wm x y wmBuf w0 h0) f a b = f a b := by
  induction l generalizing f with
  | nil => rfl
  | cons c l ih =>
    rw [List.foldl_cons]
    have hstep : ∀ a b, compositeStep wm x y wmBuf w0 h0 f c a b = f a b := by
      intro a b
      unfold compositeStep
      split
      · dsimp only
        by_cases hab : a = wrapAdd x c.1 ∧ b = wrapAdd y c.2
        · rw [if_pos hab]
          obtain ⟨ha, hb⟩ := hab
          subst ha
          subst hb
          exact blendPixel_opacity_zero wm hU hO _ _ (hf _ _)
        · rw [if_neg hab]
      · rfl
    have hvalid : ∀ a b, (compositeStep wm x y wmBuf w0 h0 f c a b).Valid := by
      intro a b
      rw [hstep a b]
      exact hf a b
    rw [ih (compositeStep wm x y wmBuf w0 h0 f c) hvalid, hstep]

/-- The iteration order of `enumerate_pixels` visits each coordinate pair
exactly once. -/
theorem coords_nodup (w h : Nat) : (coords w h).Nodup := by
  unfold coords
  refine List.Nodup.map ?_ (List.nodup_range _)
  intro i j hij
  have h1 : i % w = j % w := congrArg Prod.fst hij
  have h2 : i / w = j / w := congrArg Prod.snd hij
  calc i = w * (i / w) + i % w := (Nat.div_add_mod i w).symm
    _ = w * (j / w) + j % w := by rw [h1, h2]
    _ = j := Nat.div_add_mod j w

/-- Every in-range coordinate pair is visited by the loop. -/
theorem mem_coords (w h wx wy : Nat) (hx : wx < w) (hy : wy < h) :
    (wx, wy) ∈ coords w h := by
  have hw : 0 < w := lt_of_le_of_lt (Nat.zero_le wx) hx
  unfold coords
  refine List.mem_map.mpr ⟨wy * w + wx, List.mem_range.mpr ?_, ?_⟩
  · calc wy * w + wx < wy * w + w := by omega
      _ = (wy + 1) * w := by ring
      _ ≤ h * w := Nat.mul_le_mul_right w hy
      _ = w * h := Nat.mul_comm h w
  · have hmod : (wy * w + wx) % w = wx := by
      rw [Nat.add_comm (wy * w) wx, Nat.add_mul_mod_self_right]
      exact Nat.mod_eq_of_lt hx
    have hdiv : (wy * w + wx) / w = wy := by
      rw [Nat.add_comm, Nat.add_mul_div_right wx wy hw, Nat.div_eq_of_lt hx,
        Nat.zero_add]
    rw [hmod, hdiv]

/-- Conversely, the loop only visits in-range coordinate pairs. -/
theorem coords_mem_bounds (w h : Nat) (c : Nat × Nat)
    (hc : c ∈ coords w h) : c.1 < w ∧ c.2 < h := by
  unfold coords at hc
  obtain ⟨i, hi, hci⟩ := List.mem_map.mp hc
  have hi' : i < w * h := List.mem_range.mp hi
  have hw : 0 < w := by
    rcases Nat.eq_zero_or_pos w with h0 | h0
    · rw [h0] at hi'
      omega
    · exact h0
  rw [← hci]
  constructor
  · exact Nat.mod_lt i hw
  · rw [Nat.div_lt_iff_lt_mul hw, Nat.mul_comm h w]
    exact hi'

/-- When the placement rectangle truly fits inside the base image (no
wraparound), every destination pixel under the watermark is written
exactly once, by the blend of its own watermark pixel with the original
base pixel. -/
theorem foldl_step_single (wm : WatermarkConfig) (x y : Nat) (wmBuf : Image)
    (w0 h0 : Nat) (f : Nat → Nat → Pixel)
    (hw0 : w0 < U32LIM) (hh0 : h0 < U32LIM)
    (hx : x + wmBuf.width ≤ w0) (hy : y + wmBuf.height ≤ h0)
    (wx wy : Nat) (hwx : wx < wmBuf.width) (hwy : wy < wmBuf.height) :
    (coords wmBuf.width wmBuf.height).foldl
        (compositeStep wm x y wmBuf w0 h0) f (x + wx) (y + wy) =
      blendPixel wm (wmBuf.pix wx wy) (f (x + wx) (y + wy)) := by
  have hwa : ∀ u, u < wmBuf.width → wrapAdd x u = x + u := fun u hu =>
    wrapAdd_eq x u (by omega)
  have hwb : ∀ v, v < wmBuf.height → wrapAdd y v = y + v := fun v hv =>
    wrapAdd_eq y v (by omega)
  have hmem : (wx, wy) ∈ coords wmBuf.width wmBuf.height :=
    mem_coords _ _ _ _ hwx hwy
  obtain ⟨l₁, l₂, hsplit⟩ := List.append_of_mem hmem
  have hnd : (coords wmBuf.width wmBuf.height).Nodup := coords_nodup _ _
  rw [hsplit] at hnd
  rw [List.nodup_append] at hnd
  obtain ⟨hnd1, hnd2, hdisj⟩ := hnd
  have hnotin2 : (wx, wy) ∉ l₂ := (List.nodup_cons.mp hnd2).1
  have hnotin1 : (wx, wy) ∉ l₁ := fun hin =>
    hdisj hin (List.mem_cons_self _ _)
  have hmiss : ∀ (l' : List (Nat × Nat)), ((wx, wy) ∉ l') →
      (∀ c ∈ l', c ∈ coords wmBuf.width wmBuf.height) →
      ∀ c ∈ l', ¬(x + wx = wrapAdd x c.1 ∧ y + wy = wrapAdd y c.2) := by
    intro l' hnot hsub c hc hhit
    obtain ⟨h1, h2⟩ := hhit
    obtain ⟨hb1, hb2⟩ := coords_mem_bounds _ _ c (hsub c hc)
    rw [hwa c.1 hb1] at h1
    rw [hwb c.2 hb2] at h2
    have hceq : c = (wx, wy) := by
      have e1 : c.1 = wx := by omega
      have e2 : c.2 = wy := by omega
      cases c
      simp only [Prod.mk.injEq]
      exact ⟨e1, e2⟩
    rw [hceq] at hc
    exact hnot hc
  have hsub1 : ∀ c ∈ l₁, c ∈ coords wmBuf.width wmBuf.height := by
    intro c hc
    rw [hsplit]
    exact List.mem_append_left _ hc
  have hsub2 : ∀ c ∈ l₂, c ∈ coords wmBuf.width wmBuf.height := by
    intro c hc
    rw [hsplit]
    exact List.mem_append_right _ (List.mem_cons_of_mem _ hc)
  rw [hsplit, List.foldl_append, List.foldl_cons]
  rw [foldl_step_untouched wm x y wmBuf w0 h0 l₂ _ _ _
    (hmiss l₂ hnotin2 hsub2)]
  have hkey : compositeStep wm x y wmBuf w0 h0
      (List.foldl (compositeStep wm x y wmBuf w0 h0) f l₁) (wx, wy)
      (x + wx) (y + wy) =
      blendPixel wm (wmBuf.pix wx wy)
        (List.foldl (compositeStep wm x y wmBuf w0 h0) f l₁ (x + wx)
          (y + wy)) := by
    unfold compositeStep
    dsimp only
    rw [hwa wx hwx, hwb wy hwy]
    rw [if_pos ⟨by omega, by omega⟩]
    rw [if_pos ⟨rfl, rfl⟩]
  rw [hkey]
  rw [foldl_step_untouched wm x y wmBuf w0 h0 l₁ f _ _
    (hmiss l₁ hnotin1 hsub1)]

/-- When the watermark bytes decode and the (wrapped) bounds check
passes, `apply_watermark` returns the composited image. -/
theorem apply_watermark_ok (wdec : List Nat → Except String Image)
    (rsz : Image → Nat → Nat → Image) (img : Image) (wm : WatermarkConfig)
    (wmImg : Image) (x y w h : Nat)
    (hdec : wdec wm.content = Except.ok wmImg)
    (hpos : wm.position = (x, y, w, h))
    (hcheck : ¬(img.width < wrapAdd x w ∨ img.height < wrapAdd y h)) :
    apply_watermark wdec rsz img wm =
      Except.ok ⟨img.width, img.height,
        (coords (rsz wmImg w h).width (rsz wmImg w h).height).foldl
          (compositeStep wm x y (rsz wmImg w h) img.width img.height)
          img.pix⟩ := by
  unfold apply_watermark
  rw [hdec, hpos]
  dsimp only
  rw [if_neg hcheck]

/-- C7.  Whenever compositing runs (watermark decoded, placement check
passed), the output image has the dimensions of the base, every pixel
keeps the alpha channel it had in the base image — for every opacity,
every `use_watermark_alpha` flag and every watermark content — and every
pixel not under the (resized) watermark is completely unchanged. -/
theorem C7_alpha_preserved :
    ∀ (wdec : List Nat → Except String Image)
      (rsz : Image → Nat → Nat → Image) (img : Image)
      (wm : WatermarkConfig) (wmImg : Image) (x y w h : Nat),
      wdec wm.content = Except.ok wmImg →
      wm.position = (x, y, w, h) →
      ¬(img.width < wrapAdd x w ∨ img.height < wrapAdd y h) →
      ∃ out : Image, apply_watermark wdec rsz img wm = Except.ok out ∧
        out.width = img.width ∧ out.height = img.height ∧
        (∀ a b, (out.pix a b).a = (img.pix a b).a) ∧
        (∀ a b, (∀ wx wy, wx < (rsz wmImg w h).width →
            wy < (rsz wmImg w h).height →
            ¬(a = wrapAdd x wx ∧ b = wrapAdd y wy)) →
          out.pix a b = img.pix a b) := by
  intro wdec rsz img wm wmImg x y w h hdec hpos hcheck
  refine ⟨_, apply_watermark_ok wdec rsz img wm wmImg x y w h hdec hpos
    hcheck, rfl, rfl, ?_, ?_⟩
  · intro a b
    exact foldl_step_alpha wm x y (rsz wmImg w h) img.width img.height _
      img.pix a b
  · intro a b hmiss
    apply foldl_step_untouched
    intro c hc
    obtain ⟨h1, h2⟩ := coords_mem_bounds _ _ c hc
    exact hmiss c.1 c.2 h1 h2

/-- A watermark spec with opacity one half that uses the watermark alpha. -/
def wmAlphaW : WatermarkConfig := ⟨[1], (1, 1, 2, 1), F64.val (50 / 100), true⟩

/-- Witness for C7 at concrete inputs: compositing the 2 × 1 test
watermark at (1, 1) onto the 10 × 10 test image succeeds, preserves every
alpha value and leaves pixels outside the placement untouched. -/
theorem C7_alpha_witness :
    ∃ out : Image,
      apply_watermark wdecFix modelResize img10 wmAlphaW = Except.ok out ∧
      out.width = img10.width ∧ out.height = img10.height ∧
      (∀ a b, (out.pix a b).a = (img10.pix a b).a) ∧
      (∀ a b, (∀ wx wy, wx < (modelResize wmTestImg 2 1).width →
          wy < (modelResize wmTestImg 2 1).height →
          ¬(a = wrapAdd 1 wx ∧ b = wrapAdd 1 wy)) →
        out.pix a b = img10.pix a b) :=
  C7_alpha_preserved wdecFix modelResize img10 wmAlphaW wmTestImg 1 1 2 1
    rfl rfl (by decide)

/-- C6.  With `use_source_alpha = false`: at opacity 0 the compositor
returns the base image with every pixel unchanged (exactly, not just
within rounding tolerance — the f32 blend is exact on these values); at
opacity 1 (percentage 100), for a placement that truly fits in the base
image, every destination pixel whose resized watermark pixel is fully
opaque (alpha 255) receives exactly that watermark pixel colour channels. -/
theorem C6_opacity_endpoints :
    (∀ (wdec : List Nat → Except String Image)
      (rsz : Image → Nat → Nat → Image) (img : Image)
      (wm : WatermarkConfig) (wmImg : Image) (x y w h : Nat),
      wm.use_watermark_alpha = false → wm.opacity = F64.val 0 →
      wdec wm.content = Except.ok wmImg →
      wm.position = (x, y, w, h) →
      ¬(img.width < wrapAdd x w ∨ img.height < wrapAdd y h) →
      (∀ a b, (img.pix a b).Valid) →
      ∃ out : Image, apply_watermark wdec rsz img wm = Except.ok out ∧
        ∀ a b, out.pix a b = img.pix a b) ∧
    (∀ (wdec : List Nat → Except String Image)
      (rsz : Image → Nat → Nat → Image) (img : Image)
      (wm : WatermarkConfig) (wmImg : Image) (x y w h : Nat),
      wm.use_watermark_alpha = false → wm.opacity = F64.val 1 →
      wdec wm.content = Except.ok wmImg →
      wm.position = (x, y, w, h) →
      img.width < U32LIM → img.height < U32LIM →
      (rsz wmImg w h).width = w → (rsz wmImg w h).height = h →
      x + w ≤ img.width → y + h ≤ img.height →
      ∃ out : Image, apply_watermark wdec rsz img wm = Except.ok out ∧
        ∀ wx wy, wx < w → wy < h →
          ((rsz wmImg w h).pix wx wy).Valid →
          ((rsz wmImg w h).pix wx wy).a = 255 →
          (out.pix (x + wx) (y + wy)).r = ((rsz wmImg w h).pix wx wy).r ∧
          (out.pix (x + wx) (y + wy)).g = ((rsz wmImg w h).pix wx wy).g ∧
          (out.pix (x + wx) (y + wy)).b = ((rsz wmImg w h).pix wx wy).b) := by
  constructor
  · intro wdec rsz img wm wmImg x y w h hU hO hdec hpos hcheck hvalid
    refine ⟨_, apply_watermark_ok wdec rsz img wm wmImg x y w h hdec hpos
      hcheck, ?_⟩
    intro a b
    exact foldl_step_id wm x y (rsz wmImg w h) img.width img.height hU hO _
      img.pix hvalid a b
  · intro wdec rsz img wm wmImg x y w h hU hO hdec hpos hW hH hrw hrh hbx hby
    have hcheck : ¬(img.width < wrapAdd x w ∨ img.height < wrapAdd y h) := by
      rw [wrapAdd_eq x w (by omega), wrapAdd_eq y h (by omega)]
      omega
    refine ⟨_, apply_watermark_ok wdec rsz img wm wmImg x y w h hdec hpos
      hcheck, ?_⟩
    intro wx wy hwx hwy hvalidw ha255
    have hsingle := foldl_step_single wm x y (rsz wmImg w h) img.width
      img.height img.pix hW hH (by rw [hrw]; exact hbx)
      (by rw [hrh]; exact hby) wx wy (by rw [hrw]; exact hwx)
      (by rw [hrh]; exact hwy)
    dsimp only
    rw [hsingle]
    exact blendPixel_full wm hU hO _ _ hvalidw ha255

/-- A watermark spec with opacity 0 placed at (1, 1) with size 2 × 1. -/
def wmOp0 : WatermarkConfig := ⟨[1], (1, 1, 2, 1), F64.val 0, false⟩

/-- A watermark spec with opacity 1 placed at (1, 1) with size 2 × 1. -/
def wmOp1 : WatermarkConfig := ⟨[1], (1, 1, 2, 1), F64.val 1, false⟩

/-- Witness for C6 at concrete inputs: with opacity 0 compositing the
test watermark onto the 10 × 10 white image changes no pixel; with
opacity 1 every destination under the fully opaque watermark receives
the watermark colour channels. -/
theorem C6_opacity_witness :
    (∃ out : Image,
      apply_watermark wdecFix modelResize img10 wmOp0 = Except.ok out ∧
      ∀ a b, out.pix a b = img10.pix a b) ∧
    (∃ out : Image,
      apply_watermark wdecFix modelResize img10 wmOp1 = Except.ok out ∧
      ∀ wx wy, wx < 2 → wy < 1 →
        ((modelResize wmTestImg 2 1).pix wx wy).Valid →
        ((modelResize wmTestImg 2 1).pix wx wy).a = 255 →
        (out.pix (1 + wx) (1 + wy)).r =
          ((modelResize wmTestImg 2 1).pix wx wy).r ∧
        (out.pix (1 + wx) (1 + wy)).g =
          ((modelResize wmTestImg 2 1).pix wx wy).g ∧
        (out.pix (1 + wx) (1 + wy)).b =
          ((modelResize wmTestImg 2 1).pix wx wy).b) :=
  ⟨C6_opacity_endpoints.1 wdecFix modelResize img10 wmOp0 wmTestImg 1 1 2 1
      rfl rfl rfl rfl (by decide)
      (fun _ _ => ⟨Nat.le_refl 255, Nat.le_refl 255, Nat.le_refl 255,
        Nat.le_refl 255⟩),
   C6_opacity_endpoints.2 wdecFix modelResize img10 wmOp1 wmTestImg 1 1 2 1
      rfl rfl rfl rfl (by decide) (by decide) rfl rfl (by decide) (by decide)⟩

end ImageCpr
